import Mathlib

/-!
Verification development for the `ultravox-backend` predictor
(`src/ultravox-backend/predict.py`).

The predictor is a single request handler: decode base64 audio, run a
fixed model pipeline on (audio, two-turn conversation), take the text
after the last `<|assistant|>` marker, strip it, best-effort parse it as
JSON, and return a normalized JSON string.

The external collaborators (`base64.b64decode`, `librosa.load`, the
transformers pipeline, `json.loads`) are modelled as an explicit
environment `Env` of functions returning `Except`-style results: the
handler's behaviour depends on them only through those results, so every
theorem quantifying over `Env` holds in particular for the real
libraries.  Python exceptions are modelled as `Except.error` carrying the
exception text `str(e)`.
-/

namespace Ultravox

/-- JSON values as produced by `json.loads` and consumed by `json.dumps`.
Numbers are modelled as integers (no claim involves fractional JSON
numbers). -/
inductive JVal where
  | null : JVal
  | bool : Bool → JVal
  | num : Int → JVal
  | str : String → JVal
  | arr : List JVal → JVal
  | obj : List (String × JVal) → JVal
deriving Repr

/-- Hexadecimal digit characters, lowercase, as used by Python's
`\uXXXX` escapes. -/
def hexDigit (n : Nat) : Char :=
  if n < 10 then Char.ofNat (48 + n) else Char.ofNat (87 + n)

/-- The six-character escape `\uXXXX` for a code unit `n < 0x10000`. -/
def uEscape (n : Nat) : List Char :=
  ['\\', 'u', hexDigit (n / 4096 % 16), hexDigit (n / 256 % 16),
   hexDigit (n / 16 % 16), hexDigit (n % 16)]

/-- Escaping of one character inside a JSON string literal, following
`json.dumps` with its default `ensure_ascii=True`: short escapes for the
two-character sequences, `\uXXXX` for other control or non-ASCII
characters, surrogate pairs above the BMP. -/
def escChar (c : Char) : List Char :=
  if c = '"' then ['\\', '"']
  else if c = '\\' then ['\\', '\\']
  else if c = '\n' then ['\\', 'n']
  else if c = '\t' then ['\\', 't']
  else if c = '\r' then ['\\', 'r']
  else if c = Char.ofNat 8 then ['\\', 'b']
  else if c = Char.ofNat 12 then ['\\', 'f']
  else if c.toNat < 32 then uEscape c.toNat
  else if c.toNat < 127 then [c]
  else if c.toNat < 65536 then uEscape c.toNat
  else uEscape (55296 + (c.toNat - 65536) / 1024) ++
       uEscape (56320 + (c.toNat - 65536) % 1024)

/-- A JSON string literal for `s`, double-quoted and escaped. -/
def jstring (s : String) : String :=
  "\"" ++ ((s.toList.map escChar).flatten).asString ++ "\""

mutual

/-- Serialization of a JSON value, following `json.dumps` with its
default separators `", "` and `": "` and insertion-ordered keys. -/
def dumps : JVal → String
  | JVal.null => "null"
  | JVal.bool true => "true"
  | JVal.bool false => "false"
  | JVal.num n => toString n
  | JVal.str s => jstring s
  | JVal.arr xs => "[" ++ dumpsArr xs ++ "]"
  | JVal.obj kvs => "\x7b" ++ dumpsObj kvs ++ "\x7d"

/-- Comma-joined serialization of array elements. -/
def dumpsArr : List JVal → String
  | [] => ""
  | [x] => dumps x
  | x :: y :: xs => dumps x ++ ", " ++ dumpsArr (y :: xs)

/-- Comma-joined serialization of object members. -/
def dumpsObj : List (String × JVal) → String
  | [] => ""
  | [(k, v)] => jstring k ++ ": " ++ dumps v
  | (k, v) :: kv :: kvs => jstring k ++ ": " ++ dumps v ++ ", " ++ dumpsObj (kv :: kvs)

end

/-- Python `dict.get(k, d)` on the association list backing a JSON
object (keys from `json.loads` are unique; first binding wins). -/
def dictGet (kvs : List (String × JVal)) (k : String) (d : JVal) : JVal :=
  (kvs.lookup k).getD d

/-- Field lookup on a JSON value: `some v` when it is an object with the
key, `none` otherwise. -/
def jLookup (j : JVal) (k : String) : Option JVal :=
  match j with
  | JVal.obj kvs => kvs.lookup k
  | _ => none

/-- Whitespace stripped by Python's `str.strip()` (ASCII range). -/
def pyIsSpace (c : Char) : Bool :=
  c = ' ' || c = '\t' || c = '\n' || c = '\r' || c = '\x0b' || c = '\x0c'

/-- Python `str.strip()` on a character list: drop leading and trailing
whitespace. -/
def pyStripList (l : List Char) : List Char :=
  ((l.dropWhile pyIsSpace).reverse.dropWhile pyIsSpace).reverse

/-- Worker for Python `str.split(sep)` (non-empty `sep`): scan left to
right, cutting at each non-overlapping occurrence of `sep`; `acc` holds
the reversed characters of the current piece.  Recursion is on a fuel
that the scan consumes at most one-for-one with input characters, so
`fuel = length of the input` always suffices. -/
def splitFuel (sep : List Char) : Nat → List Char → List Char → List (List Char)
  | _, [], acc => [acc.reverse]
  | 0, c :: cs, acc => [acc.reverse ++ (c :: cs)]
  | fuel + 1, c :: cs, acc =>
    if sep ≠ [] ∧ sep.isPrefixOf (c :: cs) then
      acc.reverse :: splitFuel sep fuel ((c :: cs).drop sep.length) []
    else
      splitFuel sep fuel cs (c :: acc)

/-- Python `s.split(sep)` for a non-empty separator. -/
def pySplit (s sep : List Char) : List (List Char) :=
  splitFuel sep s.length s []

/-- The assistant-role marker the generated transcript is split on. -/
def marker : List Char := "<|assistant|>".toList

/-- The last piece of the split: Python `s.split("<|assistant|>")[-1]`. -/
def lastSegRaw (s : List Char) : List Char :=
  (pySplit s marker).getLastD []

/-- Line 73 of `predict.py`:
`response.split("<|assistant|>")[-1].strip()`. -/
def lastSegment (s : String) : String :=
  (pyStripList (lastSegRaw s.toList)).asString

/-- One conversation turn (a role tag and its content). -/
structure Turn where
  role : String
  content : String
deriving Repr, DecidableEq

/-- The fixed system persona string of `predict.py`. -/
def systemPrompt : String :=
  "You are a helpful shopping assistant. Output JSON: \x7b\x27message\x27: \x27...\x27, \x27action\x27: \x27search\x27|\x27collection\x27|\x27none\x27, \x27query\x27?..., \x27handle\x27?...\x7d"

/-- The two-turn conversation built from the user command. -/
def convTurns (command : String) : List Turn :=
  [⟨"system", systemPrompt⟩, ⟨"user", command⟩]

/-- The generation keyword arguments passed to the pipeline call. -/
structure GenParams where
  max_new_tokens : Nat
  do_sample : Bool
  top_k : Nat
  top_p : Rat
  num_return_sequences : Nat
  batch_size : Nat
deriving Repr, DecidableEq

/-- The fixed generation parameters of the single pipeline call in
`predict.py`. -/
def genParams : GenParams :=
  { max_new_tokens := 100
    do_sample := true
    top_k := 50
    top_p := (95 : Rat) / 100
    num_return_sequences := 1
    batch_size := 1 }

/-- The dictionary argument of the pipeline call: audio tensor, turns,
sampling rate. -/
structure PipelineInput where
  audio : List Int
  turns : List Turn
  sampling_rate : Nat
deriving Repr, DecidableEq

/-- A recorded pipeline invocation (input dictionary and generation
keyword arguments). -/
structure PipeCall where
  input : PipelineInput
  params : GenParams
deriving Repr, DecidableEq

/-- The external collaborators of `predict`, abstracted by their
observable results.  `Except.error e` models a raised exception with
text `str(e) = e`; `loads` returns `Except.error ()` for a
`json.JSONDecodeError`.  `pipelineRun` returns the
`[0]['generated_text']` field of the single returned sequence. -/
structure Env where
  b64decode : String → Except String (List Nat)
  librosaLoad : List Nat → Nat → Except String (List Int × Nat)
  pipelineRun : PipelineInput → GenParams → Except String String
  loads : String → Except Unit JVal

/-- The catch-all error payload of `predict.py` line 96:
`{'message': f'Error: {e}'}`. -/
def errPayload (e : String) : JVal :=
  JVal.obj [("message", JVal.str ("Error: " ++ e))]

/-- Python's type name for a JSON value, as it appears in the
`AttributeError` raised by `.get` on a non-dict. -/
def pyTypeName : JVal → String
  | JVal.null => "NoneType"
  | JVal.bool _ => "bool"
  | JVal.num _ => "int"
  | JVal.str _ => "str"
  | JVal.arr _ => "list"
  | JVal.obj _ => "dict"

/-- The text of the `AttributeError` raised by `response_data.get(...)`
when `json.loads` returned a non-dict value. -/
def pyAttrMsg (v : JVal) : String :=
  "\x27" ++ pyTypeName v ++ "\x27 object has no attribute \x27get\x27"

/-- The body of `Predictor.predict`, returning the JSON value it
serializes together with the list of pipeline invocations it performed.
`shop_domain` is accepted as in the source and unused there. -/
def predictT (env : Env) (command audio shop_domain : String) :
    JVal × List PipeCall :=
  match env.b64decode audio with
  | Except.error e => (errPayload e, [])
  | Except.ok audio_data =>
    match env.librosaLoad audio_data 16000 with
    | Except.error e => (errPayload e, [])
    | Except.ok (audio_tensor, sr) =>
      let input : PipelineInput := ⟨audio_tensor, convTurns command, sr⟩
      match env.pipelineRun input genParams with
      | Except.error e => (errPayload e, [⟨input, genParams⟩])
      | Except.ok response =>
        let assistant_response := lastSegment response
        match env.loads assistant_response with
        | Except.error _ =>
          (JVal.obj [("message", JVal.str assistant_response),
                     ("action", JVal.str "none"),
                     ("query", JVal.null),
                     ("handle", JVal.null)], [⟨input, genParams⟩])
        | Except.ok (JVal.obj kvs) =>
          (JVal.obj [("message", dictGet kvs "message" (JVal.str assistant_response)),
                     ("action", dictGet kvs "action" (JVal.str "none")),
                     ("query", dictGet kvs "query" JVal.null),
                     ("handle", dictGet kvs "handle" JVal.null)], [⟨input, genParams⟩])
        | Except.ok v =>
          (errPayload (pyAttrMsg v), [⟨input, genParams⟩])

/-- The JSON value `predict` serializes. -/
def predictJson (env : Env) (command audio shop_domain : String) : JVal :=
  (predictT env command audio shop_domain).1

/-- `Predictor.predict`: the returned string. -/
def predict (env : Env) (command audio shop_domain : String) : String :=
  dumps (predictJson env command audio shop_domain)


/-- `sep` occurs nowhere in `l` (at no start position is it a prefix of
the rest). -/
def noOcc (sep l : List Char) : Prop :=
  ∀ i, sep.isPrefixOf (l.drop i) = false

lemma noOcc_nil {sep : List Char} (hsep : sep ≠ []) : noOcc sep [] := by
  intro i
  cases sep with
  | nil => exact absurd rfl hsep
  | cons x xs => simp [List.isPrefixOf]

lemma noOcc_cons {sep : List Char} {c : Char} {cs : List Char}
    (h0 : sep.isPrefixOf (c :: cs) = false) (h : noOcc sep cs) :
    noOcc sep (c :: cs) := by
  intro i
  cases i with
  | zero => simpa using h0
  | succ i => simpa using h i

lemma getLastD_irrel {α : Type} {L : List α} (h : L ≠ []) (d1 d2 : α) :
    L.getLastD d1 = L.getLastD d2 := by
  cases L with
  | nil => exact absurd rfl h
  | cons x xs => simp [List.getLastD_eq_getLast?, List.getLast?_cons]

lemma splitFuel_nil (sep : List Char) (fuel : Nat) (acc : List Char) :
    splitFuel sep fuel [] acc = [acc.reverse] := by
  cases fuel <;> rfl

lemma splitFuel_cons_pos (sep : List Char) (c : Char) (cs acc : List Char) (fuel : Nat)
    (h : sep ≠ []) (hp : sep.isPrefixOf (c :: cs) = true) :
    splitFuel sep (fuel + 1) (c :: cs) acc =
      acc.reverse :: splitFuel sep fuel ((c :: cs).drop sep.length) [] := by
  rw [splitFuel, if_pos ⟨h, hp⟩]

lemma splitFuel_cons_neg (sep : List Char) (c : Char) (cs acc : List Char) (fuel : Nat)
    (h : ¬(sep ≠ [] ∧ sep.isPrefixOf (c :: cs) = true)) :
    splitFuel sep (fuel + 1) (c :: cs) acc = splitFuel sep fuel cs (c :: acc) := by
  rw [splitFuel, if_neg h]

lemma splitFuel_ne_nil (sep : List Char) :
    ∀ (fuel : Nat) (s acc : List Char), splitFuel sep fuel s acc ≠ [] := by
  intro fuel
  induction fuel with
  | zero =>
    intro s acc
    cases s with
    | nil => simp [splitFuel_nil]
    | cons c cs => rw [splitFuel]; simp
  | succ fuel ih =>
    intro s acc
    cases s with
    | nil => simp [splitFuel_nil]
    | cons c cs =>
      by_cases hc : sep ≠ [] ∧ sep.isPrefixOf (c :: cs) = true
      · rw [splitFuel_cons_pos sep c cs acc fuel hc.1 hc.2]
        simp
      · rw [splitFuel_cons_neg sep c cs acc fuel hc]
        exact ih cs (c :: acc)

lemma drop_of_isPrefixOf {sep l : List Char} (h : sep.isPrefixOf l = true) :
    l = sep ++ l.drop sep.length := by
  rcases List.isPrefixOf_iff_prefix.mp h with ⟨t, ht⟩
  subst ht
  simp

lemma splitFuel_last (sep : List Char) (hsep : sep ≠ []) :
    ∀ (fuel : Nat) (s acc : List Char), s.length ≤ fuel →
      (∃ a, acc.reverse ++ s = a ++ sep ++ (splitFuel sep fuel s acc).getLastD [] ∧
        noOcc sep ((splitFuel sep fuel s acc).getLastD []))
      ∨ (noOcc sep s ∧ (splitFuel sep fuel s acc).getLastD [] = acc.reverse ++ s) := by
  intro fuel
  induction fuel with
  | zero =>
    intro s acc h
    have hs : s = [] := List.length_eq_zero.mp (Nat.le_zero.mp h)
    subst hs
    right
    exact ⟨noOcc_nil hsep, by simp [splitFuel_nil]⟩
  | succ fuel ih =>
    intro s acc h
    match s with
    | [] =>
      right
      exact ⟨noOcc_nil hsep, by simp [splitFuel_nil]⟩
    | c :: cs =>
      by_cases hp : sep.isPrefixOf (c :: cs) = true
      · rw [splitFuel_cons_pos sep c cs acc fuel hsep hp]
        set rest := (c :: cs).drop sep.length with hrdef
        have hsl : 1 ≤ sep.length := by
          cases sep with
          | nil => exact absurd rfl hsep
          | cons x xs => simp
        have hrest : rest.length ≤ fuel := by
          rw [hrdef]
          simp only [List.length_drop, List.length_cons]
          simp only [List.length_cons] at h
          omega
        have hne : splitFuel sep fuel rest [] ≠ [] :=
          splitFuel_ne_nil sep fuel rest []
        have hD : (acc.reverse :: splitFuel sep fuel rest []).getLastD ([] : List Char)
            = (splitFuel sep fuel rest []).getLastD [] := by
          rw [List.getLastD_cons]
          exact getLastD_irrel hne _ _
        rw [hD]
        have hsplit : c :: cs = sep ++ rest := by
          rw [hrdef]
          exact drop_of_isPrefixOf hp
        rcases ih rest [] hrest with ⟨a, ha, hno⟩ | ⟨hno, heq⟩
        · left
          simp only [List.reverse_nil, List.nil_append] at ha
          refine ⟨acc.reverse ++ sep ++ a, ?_, hno⟩
          conv_lhs => rw [hsplit, ha]
          simp [List.append_assoc]
        · left
          simp only [List.reverse_nil, List.nil_append] at heq
          refine ⟨acc.reverse, ?_, ?_⟩
          · rw [hsplit, heq, List.append_assoc]
          · rw [heq]
            exact hno
      · have hc : ¬(sep ≠ [] ∧ sep.isPrefixOf (c :: cs) = true) := by
          intro hcon
          exact hp hcon.2
        rw [splitFuel_cons_neg sep c cs acc fuel hc]
        have hlen : cs.length ≤ fuel := by
          simp only [List.length_cons] at h
          omega
        have h0 : sep.isPrefixOf (c :: cs) = false := Bool.eq_false_iff.mpr hp
        rcases ih cs (c :: acc) hlen with ⟨a, ha, hno⟩ | ⟨hno, heq⟩
        · left
          refine ⟨a, ?_, hno⟩
          simpa using ha
        · right
          refine ⟨noOcc_cons h0 hno, ?_⟩
          rw [heq]
          simp



/-- C5: the code's extraction of the candidate answer (line 73) is exactly
the substring after the last occurrence of the assistant marker,
whitespace-trimmed, and the whole trimmed string when the marker does
not occur: the raw last piece `r` of the split is preceded by the marker
and contains no further occurrence of it, or the marker occurs nowhere
and `r` is the whole string; the candidate is `r` stripped. -/
theorem lastSegment_after_last_marker (s : String) :
    lastSegment s = (pyStripList (lastSegRaw s.toList)).asString ∧
    ((∃ a, s.toList = a ++ marker ++ lastSegRaw s.toList ∧
        noOcc marker (lastSegRaw s.toList)) ∨
      (noOcc marker s.toList ∧ lastSegRaw s.toList = s.toList)) := by
  refine ⟨rfl, ?_⟩
  have hm : marker ≠ [] := by decide
  have h := splitFuel_last marker hm s.toList.length s.toList [] le_rfl
  simpa [lastSegRaw, pySplit] using h



/-- A concrete environment whose base64 decode raises (as on
`audio="not-base64!!"`); nothing downstream is reachable. -/
def envB64Fail : Env :=
  { b64decode := fun _ => Except.error "Invalid base64-encoded string"
    librosaLoad := fun _ _ => Except.error "unreachable"
    pipelineRun := fun _ _ => Except.error "unreachable"
    loads := fun _ => Except.error () }

/-- A concrete environment where decoding succeeds and the pipeline
emits the fixed transcript `gen`; `json.loads` behaviour is `loadsF`. -/
def envWith (gen : String) (loadsF : String → Except Unit JVal) : Env :=
  { b64decode := fun _ => Except.ok [1, 2, 3]
    librosaLoad := fun _ _ => Except.ok ([0, 1], 16000)
    pipelineRun := fun _ _ => Except.ok gen
    loads := loadsF }

/-- A `json.loads` that rejects every input (as the real one does on all
the strings these transcripts produce). -/
def loadsReject : String → Except Unit JVal := fun _ => Except.error ()

/-- A transcript whose trailing assistant segment is not JSON. -/
def genNonJson : String := "Hello! <|assistant|>I am not sure what you mean."

/-- Environment producing `genNonJson`. -/
def envNonJson : Env := envWith genNonJson loadsReject

/-- C1: any exception raised before the final JSON construction — in the
base64 decode, the audio load, the pipeline call, or the `.get` lookup
on a non-dict parse result — is caught by the catch-all, and `predict`
returns the serialization of an object with exactly one key,
`"message"`, whose value is `"Error: "` followed by the exception
text. -/
theorem predict_error_path (env : Env) (command audio shop_domain e : String)
    (h :
      env.b64decode audio = Except.error e ∨
      (∃ bytes, env.b64decode audio = Except.ok bytes ∧
        env.librosaLoad bytes 16000 = Except.error e) ∨
      (∃ bytes ta sr, env.b64decode audio = Except.ok bytes ∧
        env.librosaLoad bytes 16000 = Except.ok (ta, sr) ∧
        env.pipelineRun ⟨ta, convTurns command, sr⟩ genParams = Except.error e) ∨
      (∃ bytes ta sr gen v, env.b64decode audio = Except.ok bytes ∧
        env.librosaLoad bytes 16000 = Except.ok (ta, sr) ∧
        env.pipelineRun ⟨ta, convTurns command, sr⟩ genParams = Except.ok gen ∧
        env.loads (lastSegment gen) = Except.ok v ∧ (∀ kvs, v ≠ JVal.obj kvs) ∧
        e = pyAttrMsg v)) :
    predictJson env command audio shop_domain =
      JVal.obj [("message", JVal.str ("Error: " ++ e))] ∧
    predict env command audio shop_domain =
      dumps (JVal.obj [("message", JVal.str ("Error: " ++ e))]) := by
  have hmain : predictJson env command audio shop_domain =
      JVal.obj [("message", JVal.str ("Error: " ++ e))] := by
    rcases h with h1 | ⟨bytes, h1, h2⟩ | ⟨bytes, ta, sr, h1, h2, h3⟩ |
      ⟨bytes, ta, sr, gen, v, h1, h2, h3, h4, h5, h6⟩
    · simp [predictJson, predictT, h1, errPayload]
    · simp [predictJson, predictT, h1, h2, errPayload]
    · simp [predictJson, predictT, h1, h2, h3, errPayload]
    · subst h6
      cases v with
      | obj kvs => exact absurd rfl (h5 kvs)
      | null => simp [predictJson, predictT, h1, h2, h3, h4, errPayload]
      | bool b => simp [predictJson, predictT, h1, h2, h3, h4, errPayload]
      | num n => simp [predictJson, predictT, h1, h2, h3, h4, errPayload]
      | str t => simp [predictJson, predictT, h1, h2, h3, h4, errPayload]
      | arr xs => simp [predictJson, predictT, h1, h2, h3, h4, errPayload]
  exact ⟨hmain, congrArg dumps hmain⟩

/-- Witness for C1 at a failing base64 decode. -/
theorem predict_error_path_witness :
    predictJson envB64Fail "find me a red jacket" "not-base64!!" "" =
      JVal.obj [("message", JVal.str "Error: Invalid base64-encoded string")] ∧
    predict envB64Fail "find me a red jacket" "not-base64!!" "" =
      dumps (JVal.obj [("message", JVal.str "Error: Invalid base64-encoded string")]) :=
  predict_error_path envB64Fail "find me a red jacket" "not-base64!!" ""
    "Invalid base64-encoded string" (Or.inl rfl)



/-- C2 counterexample: on a transcript whose assistant segment is not
parseable JSON, the returned object still carries `"query"` and
`"handle"` keys (bound to `null`), so the claim that those fields are
absent from the returned JSON is false. -/
theorem predict_c2_query_handle_present :
    envNonJson.loads (lastSegment genNonJson) = Except.error () ∧
    jLookup (predictJson envNonJson "c" "a" "") "query" = some JVal.null ∧
    jLookup (predictJson envNonJson "c" "a" "") "handle" = some JVal.null ∧
    ¬ (jLookup (predictJson envNonJson "c" "a" "") "query" = none ∧
       jLookup (predictJson envNonJson "c" "a" "") "handle" = none) := by
  refine ⟨rfl, rfl, rfl, ?_⟩
  intro h
  have hq : jLookup (predictJson envNonJson "c" "a" "") "query" = some JVal.null := rfl
  exact Option.noConfusion (hq.symm.trans h.1)

/-- C2 amended: every value `predict` returns is the serialization of a
JSON object whose first key is `"message"`; and when the assistant
segment is not parseable JSON the object is exactly
`message = segment, action = "none", query = null, handle = null`
(query and handle present, bound to `null`, rather than absent). -/
theorem predict_envelope :
    (∀ (env : Env) (command audio shop_domain : String),
      (∃ m rest, predictJson env command audio shop_domain =
        JVal.obj (("message", m) :: rest)) ∧
      predict env command audio shop_domain =
        dumps (predictJson env command audio shop_domain)) ∧
    (∀ (env : Env) (command audio shop_domain : String)
      (bytes : List Nat) (ta : List Int) (sr : Nat) (gen : String),
      env.b64decode audio = Except.ok bytes →
      env.librosaLoad bytes 16000 = Except.ok (ta, sr) →
      env.pipelineRun ⟨ta, convTurns command, sr⟩ genParams = Except.ok gen →
      env.loads (lastSegment gen) = Except.error () →
      predictJson env command audio shop_domain =
        JVal.obj [("message", JVal.str (lastSegment gen)),
                  ("action", JVal.str "none"),
                  ("query", JVal.null), ("handle", JVal.null)]) := by
  constructor
  · intro env command audio shop_domain
    refine ⟨?_, rfl⟩
    rcases hb : env.b64decode audio with e | bytes
    · exact ⟨JVal.str ("Error: " ++ e), [],
        by simp [predictJson, predictT, hb, errPayload]⟩
    · rcases hl : env.librosaLoad bytes 16000 with e | ⟨ta, sr⟩
      · exact ⟨JVal.str ("Error: " ++ e), [],
          by simp [predictJson, predictT, hb, hl, errPayload]⟩
      · rcases hp : env.pipelineRun ⟨ta, convTurns command, sr⟩ genParams with e | gen
        · exact ⟨JVal.str ("Error: " ++ e), [],
            by simp [predictJson, predictT, hb, hl, hp, errPayload]⟩
        · rcases hj : env.loads (lastSegment gen) with u | v
          · exact ⟨JVal.str (lastSegment gen),
              [("action", JVal.str "none"), ("query", JVal.null), ("handle", JVal.null)],
              by simp [predictJson, predictT, hb, hl, hp, hj]⟩
          · cases v with
            | obj kvs =>
              exact ⟨dictGet kvs "message" (JVal.str (lastSegment gen)),
                [("action", dictGet kvs "action" (JVal.str "none")),
                 ("query", dictGet kvs "query" JVal.null),
                 ("handle", dictGet kvs "handle" JVal.null)],
                by simp [predictJson, predictT, hb, hl, hp, hj]⟩
            | null =>
              exact ⟨JVal.str ("Error: " ++ pyAttrMsg JVal.null), [],
                by simp [predictJson, predictT, hb, hl, hp, hj, errPayload]⟩
            | bool b =>
              exact ⟨JVal.str ("Error: " ++ pyAttrMsg (JVal.bool b)), [],
                by simp [predictJson, predictT, hb, hl, hp, hj, errPayload]⟩
            | num n =>
              exact ⟨JVal.str ("Error: " ++ pyAttrMsg (JVal.num n)), [],
                by simp [predictJson, predictT, hb, hl, hp, hj, errPayload]⟩
            | str t =>
              exact ⟨JVal.str ("Error: " ++ pyAttrMsg (JVal.str t)), [],
                by simp [predictJson, predictT, hb, hl, hp, hj, errPayload]⟩
            | arr xs =>
              exact ⟨JVal.str ("Error: " ++ pyAttrMsg (JVal.arr xs)), [],
                by simp [predictJson, predictT, hb, hl, hp, hj, errPayload]⟩
  · intro env command audio shop_domain bytes ta sr gen h1 h2 h3 h4
    simp [predictJson, predictT, h1, h2, h3, h4]

/-- Witness for the amended C2 on a concrete non-JSON transcript. -/
theorem predict_envelope_witness :
    predictJson envNonJson "c" "a" "" =
      JVal.obj [("message", JVal.str "I am not sure what you mean."),
                ("action", JVal.str "none"),
                ("query", JVal.null), ("handle", JVal.null)] :=
  predict_envelope.2 envNonJson "c" "a" "" [1, 2, 3] [0, 1] 16000 genNonJson
    rfl rfl rfl rfl



/-- C3: when the trailing assistant segment parses to a JSON object, the
four returned fields come from that object: each field equals the
object's value when the key is present, `action` falls back to
`"none"` and `query`/`handle` fall back to `null` when their keys are
absent. -/
theorem predict_parsed_object_fields (env : Env)
    (command audio shop_domain : String) (bytes : List Nat) (ta : List Int)
    (sr : Nat) (gen : String) (kvs : List (String × JVal))
    (h1 : env.b64decode audio = Except.ok bytes)
    (h2 : env.librosaLoad bytes 16000 = Except.ok (ta, sr))
    (h3 : env.pipelineRun ⟨ta, convTurns command, sr⟩ genParams = Except.ok gen)
    (h4 : env.loads (lastSegment gen) = Except.ok (JVal.obj kvs)) :
    (∀ m ac q hd, kvs.lookup "message" = some m → kvs.lookup "action" = some ac →
      kvs.lookup "query" = some q → kvs.lookup "handle" = some hd →
      predictJson env command audio shop_domain =
        JVal.obj [("message", m), ("action", ac), ("query", q), ("handle", hd)]) ∧
    (kvs.lookup "action" = none →
      jLookup (predictJson env command audio shop_domain) "action" =
        some (JVal.str "none")) ∧
    (kvs.lookup "query" = none →
      jLookup (predictJson env command audio shop_domain) "query" =
        some JVal.null) ∧
    (kvs.lookup "handle" = none →
      jLookup (predictJson env command audio shop_domain) "handle" =
        some JVal.null) := by
  have hJ : predictJson env command audio shop_domain =
      JVal.obj [("message", dictGet kvs "message" (JVal.str (lastSegment gen))),
                ("action", dictGet kvs "action" (JVal.str "none")),
                ("query", dictGet kvs "query" JVal.null),
                ("handle", dictGet kvs "handle" JVal.null)] := by
    simp [predictJson, predictT, h1, h2, h3, h4]
  refine ⟨?_, ?_, ?_, ?_⟩
  · intro m ac q hd hm hac hq hhd
    rw [hJ]
    simp [dictGet, hm, hac, hq, hhd]
  · intro hac
    rw [hJ]
    simp [jLookup, dictGet, hac, List.lookup]
  · intro hq
    rw [hJ]
    simp [jLookup, dictGet, hq, List.lookup]
  · intro hhd
    rw [hJ]
    simp [jLookup, dictGet, hhd, List.lookup]

/-- The assistant segment of the C3 witness transcript: a full JSON
object with all four keys. -/
def segFull : String :=
  "\x7b\"message\": \"Here are some jackets\", \"action\": \"search\", \"query\": \"red jacket\", \"handle\": \"h1\"\x7d"

/-- The parse of `segFull`, as `json.loads` would produce it. -/
def objFull : List (String × JVal) :=
  [("message", JVal.str "Here are some jackets"),
   ("action", JVal.str "search"),
   ("query", JVal.str "red jacket"),
   ("handle", JVal.str "h1")]

/-- A `json.loads` that parses exactly `segFull`. -/
def loadsFull : String → Except Unit JVal := fun s =>
  if s = segFull then Except.ok (JVal.obj objFull) else Except.error ()

/-- Environment whose transcript ends with `segFull`. -/
def envFull : Env := envWith ("sys<|assistant|>" ++ segFull) loadsFull

/-- Witness for C3 on the full four-key object. -/
theorem predict_parsed_object_fields_witness :
    predictJson envFull "find me a red jacket" "AAAA" "" =
      JVal.obj [("message", JVal.str "Here are some jackets"),
                ("action", JVal.str "search"),
                ("query", JVal.str "red jacket"),
                ("handle", JVal.str "h1")] :=
  (predict_parsed_object_fields envFull "find me a red jacket" "AAAA" ""
      [1, 2, 3] [0, 1] 16000 ("sys<|assistant|>" ++ segFull) objFull
      rfl rfl rfl rfl).1
    (JVal.str "Here are some jackets") (JVal.str "search")
    (JVal.str "red jacket") (JVal.str "h1") rfl rfl rfl rfl

/-- C4: a trailing assistant segment that is not valid JSON does not
take the error path: the result has the trimmed segment as `message`,
`action` `"none"`, and `null` `query` and `handle`. -/
theorem predict_nonjson_fallback (env : Env)
    (command audio shop_domain : String) (bytes : List Nat) (ta : List Int)
    (sr : Nat) (gen : String)
    (h1 : env.b64decode audio = Except.ok bytes)
    (h2 : env.librosaLoad bytes 16000 = Except.ok (ta, sr))
    (h3 : env.pipelineRun ⟨ta, convTurns command, sr⟩ genParams = Except.ok gen)
    (h4 : env.loads (lastSegment gen) = Except.error ()) :
    predictJson env command audio shop_domain =
      JVal.obj [("message", JVal.str (lastSegment gen)),
                ("action", JVal.str "none"),
                ("query", JVal.null), ("handle", JVal.null)] ∧
    predict env command audio shop_domain =
      dumps (JVal.obj [("message", JVal.str (lastSegment gen)),
                       ("action", JVal.str "none"),
                       ("query", JVal.null), ("handle", JVal.null)]) := by
  have hmain : predictJson env command audio shop_domain =
      JVal.obj [("message", JVal.str (lastSegment gen)),
                ("action", JVal.str "none"),
                ("query", JVal.null), ("handle", JVal.null)] := by
    simp [predictJson, predictT, h1, h2, h3, h4]
  exact ⟨hmain, congrArg dumps hmain⟩

/-- Witness for C4 on a concrete non-JSON transcript. -/
theorem predict_nonjson_fallback_witness :
    predictJson envNonJson "what" "AAAA" "" =
      JVal.obj [("message", JVal.str "I am not sure what you mean."),
                ("action", JVal.str "none"),
                ("query", JVal.null), ("handle", JVal.null)] :=
  (predict_nonjson_fallback envNonJson "what" "AAAA" "" [1, 2, 3] [0, 1] 16000
      genNonJson rfl rfl rfl rfl).1



/-- C6: `shop_domain` is accepted but never read, so two calls differing
only in it return identical strings. -/
theorem predict_shop_domain_unused (env : Env) (command audio d1 d2 : String) :
    predict env command audio d1 = predict env command audio d2 := rfl

/-- C7: `predict` is a function of its inputs and of the library
results alone; when the model configuration is deterministic — the
collaborators answer both calls identically — two calls with identical
inputs return identical strings. -/
theorem predict_deterministic (env1 env2 : Env)
    (command audio shop_domain : String)
    (hb : ∀ a, env1.b64decode a = env2.b64decode a)
    (hl : ∀ x r, env1.librosaLoad x r = env2.librosaLoad x r)
    (hp : ∀ i p, env1.pipelineRun i p = env2.pipelineRun i p)
    (hj : ∀ s, env1.loads s = env2.loads s) :
    predict env1 command audio shop_domain =
      predict env2 command audio shop_domain := by
  simp only [predict, predictJson, predictT, hb, hl, hp, hj]

/-- Witness for C7: the same deterministic environment on both calls. -/
theorem predict_deterministic_witness :
    predict envNonJson "c" "a" "" = predict envNonJson "c" "a" "" :=
  predict_deterministic envNonJson envNonJson "c" "a" ""
    (fun _ => rfl) (fun _ _ => rfl) (fun _ _ => rfl) (fun _ => rfl)

/-- C8: whenever decoding succeeds and the model is reached, exactly one
pipeline call is made, on the decoded audio and two-turn conversation,
with the fixed generation parameters of the source:
`max_new_tokens=100`, `do_sample=True`, `top_k=50`, `top_p=0.95`,
`num_return_sequences=1`, `batch_size=1`. -/
theorem predict_single_pipeline_call (env : Env)
    (command audio shop_domain : String) (bytes : List Nat) (ta : List Int)
    (sr : Nat)
    (h1 : env.b64decode audio = Except.ok bytes)
    (h2 : env.librosaLoad bytes 16000 = Except.ok (ta, sr)) :
    (predictT env command audio shop_domain).2 =
      [⟨⟨ta, convTurns command, sr⟩, genParams⟩] ∧
    genParams.max_new_tokens = 100 ∧ genParams.do_sample = true ∧
    genParams.top_k = 50 ∧ genParams.top_p = 95 / 100 ∧
    genParams.num_return_sequences = 1 ∧ genParams.batch_size = 1 := by
  refine ⟨?_, rfl, rfl, rfl, rfl, rfl, rfl⟩
  simp only [predictT, h1, h2]
  rcases hp : env.pipelineRun ⟨ta, convTurns command, sr⟩ genParams with e | gen
  · simp [hp]
  · simp only [hp]
    rcases hj : env.loads (lastSegment gen) with u | v
    · simp [hj]
    · cases v <;> simp [hj]

/-- Witness for C8. -/
theorem predict_single_pipeline_call_witness :
    (predictT envNonJson "c" "a" "").2 =
      [⟨⟨[0, 1], convTurns "c", 16000⟩, genParams⟩] ∧
    genParams.max_new_tokens = 100 ∧ genParams.do_sample = true ∧
    genParams.top_k = 50 ∧ genParams.top_p = 95 / 100 ∧
    genParams.num_return_sequences = 1 ∧ genParams.batch_size = 1 :=
  predict_single_pipeline_call envNonJson "c" "a" "" [1, 2, 3] [0, 1] 16000
    rfl rfl



/-- C9: when the trailing assistant segment parses to valid JSON that is
not an object (a bare number, string, array, boolean or null), the
`.get` attribute lookup raises, the outer handler catches it, and the
result is the error-shaped single-field payload, not the four-field
response. -/
theorem predict_nonobject_parse_error (env : Env)
    (command audio shop_domain : String) (bytes : List Nat) (ta : List Int)
    (sr : Nat) (gen : String) (v : JVal)
    (h1 : env.b64decode audio = Except.ok bytes)
    (h2 : env.librosaLoad bytes 16000 = Except.ok (ta, sr))
    (h3 : env.pipelineRun ⟨ta, convTurns command, sr⟩ genParams = Except.ok gen)
    (h4 : env.loads (lastSegment gen) = Except.ok v)
    (h5 : ∀ kvs, v ≠ JVal.obj kvs) :
    predictJson env command audio shop_domain =
      JVal.obj [("message", JVal.str ("Error: " ++ pyAttrMsg v))] ∧
    predict env command audio shop_domain =
      dumps (JVal.obj [("message", JVal.str ("Error: " ++ pyAttrMsg v))]) := by
  have hmain : predictJson env command audio shop_domain =
      JVal.obj [("message", JVal.str ("Error: " ++ pyAttrMsg v))] := by
    cases v with
    | obj kvs => exact absurd rfl (h5 kvs)
    | null => simp [predictJson, predictT, h1, h2, h3, h4, errPayload]
    | bool b => simp [predictJson, predictT, h1, h2, h3, h4, errPayload]
    | num n => simp [predictJson, predictT, h1, h2, h3, h4, errPayload]
    | str t => simp [predictJson, predictT, h1, h2, h3, h4, errPayload]
    | arr xs => simp [predictJson, predictT, h1, h2, h3, h4, errPayload]
  exact ⟨hmain, congrArg dumps hmain⟩

/-- A `json.loads` that parses exactly the bare number `5`. -/
def loadsNum : String → Except Unit JVal := fun s =>
  if s = "5" then Except.ok (JVal.num 5) else Except.error ()

/-- Environment whose transcript ends in the bare number `5`. -/
def envNum : Env := envWith "sys<|assistant|>5" loadsNum

/-- Witness for C9 on a bare-number segment. -/
theorem predict_nonobject_parse_error_witness :
    predictJson envNum "c" "a" "" =
      JVal.obj [("message",
        JVal.str "Error: \x27int\x27 object has no attribute \x27get\x27")] :=
  (predict_nonobject_parse_error envNum "c" "a" "" [1, 2, 3] [0, 1] 16000
      "sys<|assistant|>5" (JVal.num 5) rfl rfl rfl rfl
      (fun kvs h => JVal.noConfusion h)).1

/-- C10: when the segment parses to a JSON object lacking the
`"message"` key, the returned `message` field is the whole trimmed
segment text itself (the `dict.get` default), not empty or null. -/
theorem predict_missing_message_key (env : Env)
    (command audio shop_domain : String) (bytes : List Nat) (ta : List Int)
    (sr : Nat) (gen : String) (kvs : List (String × JVal))
    (h1 : env.b64decode audio = Except.ok bytes)
    (h2 : env.librosaLoad bytes 16000 = Except.ok (ta, sr))
    (h3 : env.pipelineRun ⟨ta, convTurns command, sr⟩ genParams = Except.ok gen)
    (h4 : env.loads (lastSegment gen) = Except.ok (JVal.obj kvs))
    (h5 : kvs.lookup "message" = none) :
    predictJson env command audio shop_domain =
      JVal.obj [("message", JVal.str (lastSegment gen)),
                ("action", dictGet kvs "action" (JVal.str "none")),
                ("query", dictGet kvs "query" JVal.null),
                ("handle", dictGet kvs "handle" JVal.null)] ∧
    jLookup (predictJson env command audio shop_domain) "message" =
      some (JVal.str (lastSegment gen)) := by
  have hmain : predictJson env command audio shop_domain =
      JVal.obj [("message", JVal.str (lastSegment gen)),
                ("action", dictGet kvs "action" (JVal.str "none")),
                ("query", dictGet kvs "query" JVal.null),
                ("handle", dictGet kvs "handle" JVal.null)] := by
    simp [predictJson, predictT, h1, h2, h3, h4]
    simp [dictGet, h5]
  refine ⟨hmain, ?_⟩
  rw [hmain]
  simp [jLookup, List.lookup]

/-- The assistant segment of the C10 witness transcript: an object with
an `action` key but no `message` key. -/
def segNoMsg : String := "\x7b\"action\": \"search\"\x7d"

/-- A `json.loads` that parses exactly `segNoMsg`. -/
def loadsNoMsg : String → Except Unit JVal := fun s =>
  if s = segNoMsg then Except.ok (JVal.obj [("action", JVal.str "search")])
  else Except.error ()

/-- Environment whose transcript ends with `segNoMsg`. -/
def envNoMsg : Env := envWith ("sys<|assistant|>" ++ segNoMsg) loadsNoMsg

/-- Witness for C10: the raw JSON text comes back as the message. -/
theorem predict_missing_message_key_witness :
    predictJson envNoMsg "c" "a" "" =
      JVal.obj [("message", JVal.str segNoMsg),
                ("action", JVal.str "search"),
                ("query", JVal.null), ("handle", JVal.null)] :=
  (predict_missing_message_key envNoMsg "c" "a" "" [1, 2, 3] [0, 1] 16000
      ("sys<|assistant|>" ++ segNoMsg) [("action", JVal.str "search")]
      rfl rfl rfl rfl rfl).1


end Ultravox
